import Mathlib

/-!
Verification of the out-of-core block-tiling and concurrent-write engine of
the `dolphin` (née atlas) repository, shallowly embedded in Lean.  The
embedding follows `src/dolphin/workflows/single.py`,
`src/dolphin/shp/_glrt.py`, `src/dolphin/io/_writers.py` and
`src/dolphin/workflows/config/_enums.py`; collaborators that are not part of
the source tree (the block planner, the background writer base class, the
phase-linking estimator, the mini-stack metadata) are modelled from the
specification and marked as such.
-/

namespace Dolphin

/-! ## Scalar values

Array elements (float32 / complex64 components) are modelled as either a
finite value (a rational) or one of the IEEE non-finite states. -/

/-- Scalar element of a raster array: a finite value or a non-finite state. -/
inductive FP where
  | num (q : ℚ)
  | nan
  | inf
  | ninf
deriving DecidableEq, BEq, Repr

/-- True exactly on finite values. -/
def FP.isFinite : FP → Bool
  | .num _ => true
  | _ => false

/-- Largest finite float32, `(2 - 2^-23) * 2^127`, exactly. -/
def f32max : ℚ := 2 ^ 128 - 2 ^ 104

/-- Embedding of `np.nan_to_num` with default arguments (used at
single.py:212-213): NaN becomes 0, +inf the largest finite float,
-inf the most negative finite float; finite values pass through. -/
def nanToNum : FP → FP
  | .num q => .num q
  | .nan => .num 0
  | .inf => .num f32max
  | .ninf => .num (-f32max)

/-- Matrix: a 2D raster block. -/
abbrev Mat := List (List FP)

/-- Stack: one matrix per time slice. -/
abbrev Stack := List Mat

/-- All entries of a matrix satisfy `p`. -/
def matAll (p : FP → Bool) (m : Mat) : Bool :=
  m.all fun row => row.all p

/-- All entries of a stack satisfy `p`. -/
def stackAll (p : FP → Bool) (s : Stack) : Bool :=
  s.all (matAll p)

/-- Map a scalar function over every entry of a matrix. -/
def matMap (f : FP → FP) (m : Mat) : Mat :=
  m.map (List.map f)

/-- Map a scalar function over every entry of a stack. -/
def stackMap (f : FP → FP) (s : Stack) : Stack :=
  s.map (matMap f)

/-! ## Python slice semantics

Ranges produced by the block planner are nonnegative `[start, stop)` pairs;
the trim slices computed in `single.py` lines 229-234 are genuine Python
slices whose stop may be zero or negative, so we embed Python's step-1 slice
resolution exactly. -/

/-- Nonnegative index range `[start, stop)`. -/
structure Range2 where
  start : Nat
  stop : Nat
deriving DecidableEq, Repr

/-- Resolve one endpoint of a Python step-1 slice against an axis of length
`len`: negative indices count from the end and clamp at 0, nonnegative ones
clamp at `len`. -/
def pyIdx (i : Int) (len : Nat) : Nat :=
  if i < 0 then ((len : Int) + i).toNat else min i.toNat len

/-- Take the `[a, b)` segment of a list (both already nonnegative). -/
def sliceN (a b : Nat) (l : List α) : List α :=
  (l.drop a).take (b - a)

/-- Python `l[s:e]` with step 1. -/
def sliceListI (s e : Int) (l : List α) : List α :=
  sliceN (pyIdx s l.length) (pyIdx e l.length) l

/-- Python 2D slicing `m[r0:r1, c0:c1]` with nonnegative bounds. -/
def sliceMat (r c : Range2) (m : Mat) : Mat :=
  (sliceN r.start r.stop m).map (sliceN c.start c.stop)

/-- Python 2D slicing with genuine (possibly negative/zero) slice endpoints. -/
def sliceMatI (rs re cs ce : Int) (m : Mat) : Mat :=
  (sliceListI rs re m).map (sliceListI cs ce)

/-! ## Block geometry

`dolphin._blocks.BlockManager` is not under src/; it is modelled from the
spec (§4.1 BlockPlanner). -/

/-- One block descriptor, as yielded by `BlockManager.iter_blocks` and
destructured at single.py lines 154-159. -/
structure BlockDesc where
  outRows : Range2
  outCols : Range2
  trimmedRows : Range2
  trimmedCols : Range2
  inRows : Range2
  inCols : Range2
  noPadRows : Range2
  noPadCols : Range2
deriving DecidableEq, Repr

/-- Modelled from the spec: §4.1 partitions the output grid into tiles of
`block` starting at multiples of `block`. -/
def tileStarts (total block : Nat) : List Nat :=
  (List.range ((total + block - 1) / block)).map (· * block)

/-- Modelled from the spec: per-axis block geometry of §4.1 BlockPlanner.
`n` is the full-resolution axis length.  The output axis is the strided
downsampling of the input axis; each output tile `[o0, o1)` owns the
full-resolution footprint `[o0*stride, o1*stride)` clipped to the grid
(for stride 1 this is the identity map of §4.1 step 1); the input range
expands the footprint by `half` on each side, clipped to `[0, n)`; the
trimmed range is the offset of the footprint within the input range,
expressed on the stride sampling grid.  Returns
(output, trimmed, input, unpadded-input) ranges per tile. -/
def planAxis (n block stride half : Nat) :
    List (Range2 × Range2 × Range2 × Range2) :=
  let outN := n / stride
  (tileStarts outN block).map fun o0 =>
    let o1 := min (o0 + block) outN
    let u0 := o0 * stride
    let u1 := min (o1 * stride) n
    let i0 := u0 - half
    let i1 := min (u1 + half) n
    let t0 := (u0 - i0) / stride
    (⟨o0, o1⟩, ⟨t0, t0 + (o1 - o0)⟩, ⟨i0, i1⟩, ⟨u0, u1⟩)

/-- Modelled from the spec: `BlockManager.iter_blocks` yields blocks in
row-major order (§4.1), the product of the per-axis plans. -/
def planBlocks (rows cols blockR blockC rStride cStride halfR halfC : Nat) :
    List BlockDesc :=
  ((planAxis rows blockR rStride halfR).map fun pr =>
    (planAxis cols blockC cStride halfC).map fun pc =>
      BlockDesc.mk pr.1 pc.1 pr.2.1 pc.2.1 pr.2.2.1 pc.2.2.1 pr.2.2.2 pc.2.2.2).flatten

/-! ## The compression trim slices of single.py -/

/-- Embedding of single.py lines 232-234: the row slice used to cut the
full-resolution inner portion out of the fetched block,
`slice(in_no_pad_rows.start - in_rows.start, in_no_pad_rows.stop - in_rows.stop)`. -/
def trimFullRow (b : BlockDesc) : Int × Int :=
  ((b.noPadRows.start : Int) - (b.inRows.start : Int),
   (b.noPadRows.stop : Int) - (b.inRows.stop : Int))

/-- Embedding of single.py lines 229-231, the column analogue. -/
def trimFullCol (b : BlockDesc) : Int × Int :=
  ((b.noPadCols.start : Int) - (b.inCols.start : Int),
   (b.noPadCols.stop : Int) - (b.inCols.stop : Int))

/-- Embedding of single.py line 237: the sub-array
`cur_data[first_real_slc_idx:, trim_full_row, trim_full_col]` handed to
`compress` as the real full-resolution data. -/
def compressedInput (firstReal : Nat) (b : BlockDesc) (curData : Stack) :
    Stack :=
  (curData.drop firstReal).map fun m =>
    sliceMatI (trimFullRow b).1 (trimFullRow b).2
      (trimFullCol b).1 (trimFullCol b).2 m

/-- A stack of `n` slices of `r`-by-`c` matrices, all ones. -/
def onesStack (n r c : Nat) : Stack :=
  List.replicate n (List.replicate r (List.replicate c (FP.num 1)))

/-! ## The per-block pipeline of `run_wrapped_phase_single`

`dolphin.phase_link.run_mle` and `compress` and the `shp.estimate_neighbors`
dispatcher are external collaborators (not under src/), so the pipeline is
parameterised by them; everything else follows single.py lines 154-266. -/

/-- Error raised by the phase-linking estimator.  `phaseLinkRuntime` embeds
`PhaseLinkRuntimeError`, the recoverable per-block error; `other` stands for
any other exception type. -/
inductive PLErr where
  | phaseLinkRuntime (msg : String)
  | other (msg : String)
deriving DecidableEq, Repr

/-- Result triple of `run_mle`: the per-slice phase estimates, the temporal
correlation, and the (optional) average coherence. -/
structure EstOut where
  mleStack : Stack
  tcorr : Mat
  avgCoh : Option Mat
deriving DecidableEq, Repr

/-- One request handed to `writer.queue_write(data, filename, row_start,
col_start)`. -/
structure WriteReq where
  data : Mat
  file : String
  rowStart : Nat
  colStart : Nat
deriving DecidableEq, Repr

/-- The per-mini-stack constants of `run_wrapped_phase_single`: the index of
the first real (non-compressed) slice, the per-slice output files created by
`setup_output_folder`, and the four auxiliary output files of lines 120-125. -/
structure SingleParams where
  firstRealSlcIdx : Nat
  phaseLinkedSlcFiles : List String
  compSlcFile : String
  tcorrFile : String
  avgCohFile : String
  shpCountsFile : String

/-- Boolean neighbor windows, one window per output pixel (the 4D
`neighbor_arrays`). -/
abbrev NeighborArrays := List (List (List (List Bool)))

/-- Embedding of single.py line 226,
`shp_counts = np.sum(neighbor_arrays, axis=(-2, -1))`. -/
def shpCountsOf (na : NeighborArrays) : Mat :=
  na.map fun row => row.map fun w =>
    FP.num (((w.map fun r => r.count true).sum : Nat) : ℚ)

/-- Embedding of single.py line 182: the reference index is recomputed as
`max(0, first_real_slc_idx - 1)` inside the block loop, before `run_mle` is
called. -/
def refIdxUsed (firstReal : Nat) : Int :=
  max 0 ((firstReal : Int) - 1)

/-- Embedding of single.py lines 219-223: each scrubbed estimate from
`first_real_slc_idx` on, cut to `trimmed` range, is zipped with its
per-slice output file and queued at the block's output offset. -/
def perSliceReqs (firstReal : Nat) (files : List String) (b : BlockDesc)
    (mleStack : Stack) : List WriteReq :=
  (List.zip
      ((mleStack.drop firstReal).map (sliceMat b.trimmedRows b.trimmedCols))
      files).map
    fun pr => ⟨pr.1, pr.2, b.outRows.start, b.outCols.start⟩

/-- Embedding of single.py lines 252-261: the auxiliary outputs
`[tcorr, avg_coh, shp_counts]` are zipped with their files; a `None` entry is
skipped; each written array is the `trimmed`-sliced data at the block's
output offset. -/
def auxReqs (p : SingleParams) (b : BlockDesc)
    (tcorr : Mat) (avgCoh : Option Mat) (counts : Mat) : List WriteReq :=
  (List.zip ([some tcorr, avgCoh, some counts] : List (Option Mat))
      [p.tcorrFile, p.avgCohFile, p.shpCountsFile]).filterMap
    fun pr => pr.1.map fun m =>
      WriteReq.mk (sliceMat b.trimmedRows b.trimmedCols m) pr.2
        b.outRows.start b.outCols.start

/-- Outcome of one iteration of the block loop: skipped because the fetched
data was all the no-data sentinel (lines 162-163), skipped because the
estimator raised its recoverable error (lines 198-209), or completed with a
list of queued write requests. -/
inductive BlockResult where
  | skippedNoData
  | skippedPhaseLink (msg : String)
  | wrote (reqs : List WriteReq)
deriving DecidableEq, Repr

/-- Embedding of the loop body, single.py lines 161-261.  `runMle` is the
external estimator (taking the reference index and the block data),
`compress` the external mini-stack compressor, `na` the block's neighbor
windows, `curData` the fetched sub-array.  Exceptions other than
`PhaseLinkRuntimeError` become `Except.error` (they propagate). -/
def processBlock (p : SingleParams)
    (runMle : Int → Stack → Except PLErr EstOut)
    (compress : Stack → Stack → Mat)
    (na : NeighborArrays) (b : BlockDesc) (curData : Stack) :
    Except String BlockResult :=
  if stackAll (fun v => v == FP.num 0) curData then
    .ok .skippedNoData
  else
    match runMle (refIdxUsed p.firstRealSlcIdx) curData with
    | .error (.phaseLinkRuntime msg) => .ok (.skippedPhaseLink msg)
    | .error (.other msg) => .error msg
    | .ok est =>
      let mleScrubbed := stackMap nanToNum est.mleStack
      let tcorrScrubbed := matMap nanToNum est.tcorr
      let compSlc := compress
        (compressedInput p.firstRealSlcIdx b curData)
        ((mleScrubbed.drop p.firstRealSlcIdx).map
          (sliceMat b.trimmedRows b.trimmedCols))
      .ok (.wrote
        (perSliceReqs p.firstRealSlcIdx p.phaseLinkedSlcFiles b mleScrubbed
          ++ [⟨compSlc, p.compSlcFile, b.noPadRows.start, b.noPadCols.start⟩]
          ++ auxReqs p b tcorrScrubbed est.avgCoh (shpCountsOf na)))

/-- Embedding of `vrt.read_stack(rows=in_rows, cols=in_cols)` (line 161):
cut the block's padded input range out of every slice of the full image. -/
def readStack (full : Stack) (b : BlockDesc) : Stack :=
  full.map (sliceMat b.inRows b.inCols)

/-- True when a block outcome is a propagating (fatal) exception. -/
def isFatal (e : Except String BlockResult) : Bool :=
  match e with
  | .error _ => true
  | .ok _ => false

/-- Embedding of the block loop, single.py lines 154-261: each block is
fetched and processed; a no-data block contributes nothing, a recoverable
phase-link failure records its diagnostic message and continues, a completed
block appends its write requests in order, and any other exception aborts
the whole loop.  Returns (diagnostics, queued requests) on success. -/
def runBlockLoop (p : SingleParams)
    (runMle : Int → Stack → Except PLErr EstOut)
    (compress : Stack → Stack → Mat)
    (na : BlockDesc → NeighborArrays) (full : Stack) :
    List BlockDesc → Except String (List String × List WriteReq)
  | [] => .ok ([], [])
  | b :: rest =>
    match processBlock p runMle compress (na b) b (readStack full b) with
    | .error msg => .error msg
    | .ok .skippedNoData => runBlockLoop p runMle compress na full rest
    | .ok (.skippedPhaseLink msg) =>
      (runBlockLoop p runMle compress na full rest).map
        fun dr => (msg :: dr.1, dr.2)
    | .ok (.wrote reqs) =>
      (runBlockLoop p runMle compress na full rest).map
        fun dr => (dr.1, reqs ++ dr.2)

/-- Embedding of `run_wrapped_phase_single`'s dependence on its
`reference_idx` keyword (default 0): line 182 reassigns `reference_idx`
before every use, so the parameter is dead and the loop below does not
consult it. -/
def runWrappedPhaseSingle (reference_idx : Int) (p : SingleParams)
    (runMle : Int → Stack → Except PLErr EstOut)
    (compress : Stack → Stack → Mat)
    (na : BlockDesc → NeighborArrays) (full : Stack)
    (blocks : List BlockDesc) :
    Except String (List String × List WriteReq) :=
  runBlockLoop p runMle compress na full blocks

/-! ## Mini-stack metadata and output-folder setup -/

/-- Modelled from the spec: one entry of `MiniStackInfo`'s slice list (§3):
a date string and whether the slice is an already-compressed synthetic
slice carried over from a prior mini-stack. -/
structure SlcEntry where
  dateStr : String
  isCompressed : Bool
deriving DecidableEq, Repr

/-- Modelled from the spec: `dolphin.stack.MiniStackInfo` is not under src/;
per §3 it is the ordered list of input time slices of the mini-stack. -/
structure MiniStackInfo where
  entries : List SlcEntry
deriving DecidableEq, Repr

/-- Modelled from the spec: `first_real_slc_idx` is "a count of how many of
the leading entries are already-compressed synthetic slices" (§3). -/
def countLeadingCompressed : List SlcEntry → Nat
  | [] => 0
  | e :: rest => if e.isCompressed then countLeadingCompressed rest + 1 else 0

/-- The `first_real_slc_idx` attribute used at single.py lines 94 and 371. -/
def MiniStackInfo.firstRealSlcIdx (ms : MiniStackInfo) : Nat :=
  countLeadingCompressed ms.entries

/-- Modelled from the spec: `get_date_str_list` returns one date string per
slice of the mini-stack, in order. -/
def MiniStackInfo.getDateStrList (ms : MiniStackInfo) : List String :=
  ms.entries.map (·.dateStr)

/-- Number of real (non-synthetic) slices in the mini-stack. -/
def MiniStackInfo.realSlcCount (ms : MiniStackInfo) : Nat :=
  (ms.entries.filter fun e => !e.isCompressed).length

/-- Embedding of single.py lines 371-391 (`setup_output_folder`): one empty
per-slice output file named after each date string from
`first_real_slc_idx` on. -/
def setupOutputFolder (ms : MiniStackInfo) : List String :=
  (ms.getDateStrList.drop ms.firstRealSlcIdx).map fun d => d ++ ".slc.tif"

/-! ## The background writer (io/_writers.py `Writer`) -/

/-- Modelled from the spec: `dolphin._background.BackgroundWriter` (the base
class of `Writer`) is not under src/.  Per §4.2 and §5 it is a FIFO queue of
write requests consumed by exactly one worker context that persists each
dequeued request in enqueue order; the state keeps the pending queue and the
ordered log of persisted requests, together with the `debug` flag of
`Writer.__init__`. -/
structure WriterState where
  debug : Bool
  queue : List WriteReq
  persisted : List WriteReq
deriving DecidableEq, Repr

/-- Embedding of `Writer.__init__` (io/_writers.py lines 300-305): a fresh
writer with the given `debug` flag and nothing queued or persisted. -/
def Writer.init (debug : Bool) : WriterState :=
  ⟨debug, [], []⟩

/-- Embedding of `Writer.write` (io/_writers.py lines 307-330): persist one
request immediately, on the caller's execution context. -/
def Writer.write (s : WriterState) (r : WriteReq) : WriterState :=
  { s with persisted := s.persisted ++ [r] }

/-- Embedding of `queue_write`: with `debug=True`, `__init__` rebinds
`queue_write` to `write` (line 305), so the request is persisted
synchronously; with `debug=False` the request joins the FIFO queue for the
background worker (queue behaviour modelled from the spec, §4.2). -/
def Writer.queueWrite (s : WriterState) (r : WriteReq) : WriterState :=
  if s.debug then Writer.write s r else { s with queue := s.queue ++ [r] }

/-- Modelled from the spec: `notify_finished` drains — it blocks until the
single consumer has persisted every queued request, in FIFO order (§4.2
ordering guarantee), leaving an empty queue. -/
def Writer.notifyFinished (s : WriterState) : WriterState :=
  { s with queue := [], persisted := s.persisted ++ s.queue }

/-- Queue a list of requests, in order. -/
def Writer.queueAll (s : WriterState) (rs : List WriteReq) : WriterState :=
  rs.foldl Writer.queueWrite s

/-! ## The ShpMethod enumeration (workflows/config/_enums.py) -/

/-- The member list of `class ShpMethod(str, Enum)` (lines 9-16), in
declaration order: member name and string value. -/
def shpMethodMembers : List (String × String) :=
  [("GLRT", "glrt"), ("KS", "ks"), ("RECT", "rect"), ("NONE", "rect")]

/-- Python `Enum` member resolution: a later name whose value duplicates an
earlier member's value becomes an alias of that earlier member.  Resolves a
declared name to the canonical member name owning its value. -/
def enumResolve (members : List (String × String)) (name : String) :
    Option String :=
  (members.lookup name).bind fun v =>
    (members.find? fun m => m.2 == v).map (·.1)

/-- The distinct members of `ShpMethod` after Python alias resolution. -/
inductive ShpMethod where
  | glrt
  | ks
  | rect
deriving DecidableEq, Repr

/-- String value of each member. -/
def ShpMethod.value : ShpMethod → String
  | .glrt => "glrt"
  | .ks => "ks"
  | .rect => "rect"

/-- The `NONE` declaration: `NONE = "rect"` duplicates `RECT`'s value, so
Python's Enum machinery makes the name an alias of the member `RECT`. -/
def ShpMethod.NONE : ShpMethod := ShpMethod.rect

/-! ## The GLRT neighbor estimator (shp/_glrt.py) -/

/-- Rational-valued raster (amplitude statistics are real-valued). -/
abbrev QMat := List (List ℚ)

/-- Clamped 2D gather, modelling jit-compiled `jnp` array indexing
(out-of-bounds reads clamp to the nearest valid index). -/
def qGet (m : QMat) (r c : Nat) : ℚ :=
  let row := m.getD (min r (m.length - 1)) []
  row.getD (min c (row.length - 1)) 0

/-- Boolean matrix gather with a `false` out-of-bounds default. -/
def bGet (m : List (List Bool)) (r c : Nat) : Bool :=
  (m.getD r []).getD c false

/-- Modelled from the spec: `dolphin.utils.compute_out_shape` is not under
src/; the output grid is the input grid downsampled by the stride factors
(§3: strides define the "output downsampling factor relative to input
resolution"). -/
def computeOutShape (rows cols rStride cStride : Nat) : Nat × Nat :=
  (rows / rStride, cols / cStride)

/-- Inputs of `estimate_neighbors` (_glrt.py lines 17-24).  `logf` stands
for the external `jnp.log`, and `threshold` for
`scipy.stats.chi2.ppf(1 - alpha, df=1)` computed at line 39; both are
outside-the-engine numerics. -/
structure GlrtInputs where
  mean : QMat
  var : QMat
  halfRow : Nat
  halfCol : Nat
  rowStrides : Nat
  colStrides : Nat
  nslc : Nat
  logf : ℚ → ℚ
  threshold : ℚ

/-- Embedding of line 36: `scale_squared = (var + mean ** 2) / 2`. -/
def scaleSquared (g : GlrtInputs) : QMat :=
  List.zipWith (List.zipWith fun m v => (v + m ^ 2) / 2) g.mean g.var

/-- The `lax.dynamic_slice` start adjustment: the start index is clamped so
that a slice of the given size fits inside the axis. -/
def dynSliceStart (start : Int) (dim size : Nat) : Nat :=
  min start.toNat (dim - size)

/-- Embedding of `_get_window` (lines 41-50): the
`(2*half_row+1) × (2*half_col+1)` window of `arr` whose top-left corner is
`(r - half_row, c - half_col)`, with `lax.dynamic_slice` start clamping. -/
def getWindow (arr : QMat) (r c halfRow halfCol : Nat) : QMat :=
  let rsize := 2 * halfRow + 1
  let csize := 2 * halfCol + 1
  let r0 := dynSliceStart ((r : Int) - (halfRow : Int)) arr.length rsize
  let c0 := dynSliceStart ((c : Int) - (halfCol : Int))
    (arr.getD 0 []).length csize
  (sliceN r0 (r0 + rsize) arr).map (sliceN c0 (c0 + csize))

/-- Embedding of line 32, `in_r_start = row_strides // 2`. -/
def inRStart (g : GlrtInputs) : Nat :=
  g.rowStrides / 2

/-- Embedding of line 33, `in_c_start = col_strides // 2`. -/
def inCStart (g : GlrtInputs) : Nat :=
  g.colStrides / 2

/-- Embedding of line 53, `in_r = in_r_start + out_r * row_strides`: the
full-resolution row tested for output row `out_r`. -/
def inRIndex (g : GlrtInputs) (outR : Nat) : Nat :=
  inRStart g + outR * g.rowStrides

/-- Embedding of line 54, the column analogue. -/
def inCIndex (g : GlrtInputs) (outC : Nat) : Nat :=
  inCStart g + outC * g.colStrides

/-- A JAX scatter `m.at[r, c].set(v)`: an out-of-bounds scatter index drops
the update (`List.set` past the end is the identity, matching JAX's default
scatter mode). -/
def setAtDrop (m : List (List Bool)) (r c : Nat) (v : Bool) :
    List (List Bool) :=
  m.set r ((m.getD r []).set c v)

/-- Embedding of `_process_row_col` (lines 52-68): the GLRT statistic of the
tested pixel against each pixel of its window, thresholded, followed by
`is_shp.at[in_r, in_c].set(False)` — a scatter at the FULL-RESOLUTION
indices `(in_r, in_c)` into the small window array. -/
def processRowCol (g : GlrtInputs) (outR outC : Nat) : List (List Bool) :=
  let s := scaleSquared g
  let inR := inRIndex g outR
  let inC := inCIndex g outC
  let scale1 := qGet s inR inC
  let scale2 := getWindow s inR inC g.halfRow g.halfCol
  let isShp := scale2.map (List.map fun s2 =>
    decide ((g.nslc : ℚ) *
        (2 * g.logf ((scale1 + s2) / 2) - g.logf scale1 - g.logf s2)
      < g.threshold))
  setAtDrop isShp inR inC false

/-- Embedding of `estimate_neighbors` (lines 17-79): one boolean window per
output pixel over the strided output grid. -/
def estimateNeighbors (g : GlrtInputs) : List (List (List (List Bool))) :=
  let os := computeOutShape g.mean.length (g.mean.getD 0 []).length
    g.rowStrides g.colStrides
  (List.range os.1).map fun r => (List.range os.2).map fun c =>
    processRowCol g r c

/-! ## Concrete fixtures used by witnesses and counterexamples -/

/-- Mini-stack parameters with no leading compressed slice and one real
slice output file. -/
def pW : SingleParams :=
  ⟨0, ["d1.slc.tif"], "comp.tif", "tcorr.tif", "avgcoh.tif", "shp.tif"⟩

/-- A degenerate 1×1 block descriptor. -/
def bW : BlockDesc :=
  ⟨⟨0, 1⟩, ⟨0, 1⟩, ⟨0, 1⟩, ⟨0, 1⟩, ⟨0, 1⟩, ⟨0, 1⟩, ⟨0, 1⟩, ⟨0, 1⟩⟩

/-- An all-finite estimator result. -/
def estW : EstOut := ⟨[[[FP.num 1]]], [[FP.num 1]], none⟩

/-- An estimator result whose average coherence contains a NaN. -/
def estNan : EstOut := ⟨[[[FP.num 1]]], [[FP.num 1]], some [[FP.nan]]⟩

/-- Estimators used by witnesses. -/
def rmOk : Int → Stack → Except PLErr EstOut := fun _ _ => .ok estW

/-- Estimator returning a NaN average coherence. -/
def rmNanCoh : Int → Stack → Except PLErr EstOut := fun _ _ => .ok estNan

/-- Estimator that always raises the recoverable error. -/
def rmPL : Int → Stack → Except PLErr EstOut :=
  fun _ _ => .error (.phaseLinkRuntime "bad block")

/-- Estimator that always raises a non-recoverable error. -/
def rmFatal : Int → Stack → Except PLErr EstOut :=
  fun _ _ => .error (.other "boom")

/-- Two estimators that agree at reference index 0 and differ elsewhere. -/
def rmRef : Int → Stack → Except PLErr EstOut :=
  fun r _ => if r == 0 then .ok estW else .error (.other "fatal")

/-- Companion of `rmRef`, identical at reference index 0 only. -/
def rmRef' : Int → Stack → Except PLErr EstOut :=
  fun r _ => if r == 0 then .ok estW else .ok estNan

/-- A trivial compressor. -/
def cpW : Stack → Stack → Mat := fun _ _ => [[FP.num 0]]

/-- One 1×1 neighbor window per block. -/
def naW : BlockDesc → NeighborArrays := fun _ => [[[[false]]]]

/-- A 1-slice 1×1 all-ones stack. -/
def ones1 : Stack := onesStack 1 1 1

/-- A 1-slice 1×1 all-zero (no-data) stack. -/
def zeros1 : Stack := [[[FP.num 0]]]

/-- A mini-stack with one leading compressed slice and two real slices. -/
def msW : MiniStackInfo :=
  ⟨[⟨"c0", true⟩, ⟨"d1", false⟩, ⟨"d2", false⟩]⟩

/-- A 3-slice stack of distinct 1×1 estimates. -/
def mleW : Stack := [[[FP.num 2]], [[FP.num 3]], [[FP.num 4]]]

/-- Constant amplitude mean, 4×4. -/
def meanW : QMat := List.replicate 4 (List.replicate 4 1)

/-- Unit amplitude variance, 4×4 (so the Rayleigh scale is exactly 1). -/
def varW : QMat := List.replicate 4 (List.replicate 4 1)

/-- GLRT inputs on the constant 4×4 grid with half-window (1,1),
strides (1,1) and one look. -/
def gW (logf : ℚ → ℚ) (threshold : ℚ) : GlrtInputs :=
  ⟨meanW, varW, 1, 1, 1, 1, 1, logf, threshold⟩

end Dolphin

namespace Dolphin

/-- C1: the spec's own example scenario (grid 100×100, block 32×32, stride 1,
half-window 2) has 16 blocks; its bottom-right block has
`in_rows = [94, 100)` and `in_no_pad_rows = [96, 100)`, so the code's
`trim_full_row` is `slice(2, 0)`, and the sub-array selected for compression
from a 6×6 fetched block is empty (0 rows selected per slice), even though
the unpadded range owns 4 valid rows.  This refutes the claim that the
selected sub-array is exactly (and in particular non-emptily) the data over
`unpadded_input_range` at grid-edge blocks with zero clipped halo. -/
theorem c1_edge_block_compression_slice_empty :
    (planBlocks 100 100 32 32 1 1 2 2).length = 16 ∧
    ((planBlocks 100 100 32 32 1 1 2 2).get? 15).map
        (fun b => (b.inRows, b.noPadRows, trimFullRow b)) =
      some (⟨94, 100⟩, ⟨96, 100⟩, (2, 0)) ∧
    ((planBlocks 100 100 32 32 1 1 2 2).get? 15).map
        (fun b => (compressedInput 0 b (onesStack 1 6 6)).map List.length) =
      some [0] ∧
    ((planBlocks 100 100 32 32 1 1 2 2).get? 15).map
        (fun b => b.noPadRows.stop - b.noPadRows.start) = some 4 := by
  decide

/-- Step equation of the block loop on a non-empty block list. -/
theorem runBlockLoop_cons (p : SingleParams)
    (runMle : Int → Stack → Except PLErr EstOut)
    (compress : Stack → Stack → Mat) (na : BlockDesc → NeighborArrays)
    (full : Stack) (b : BlockDesc) (rest : List BlockDesc) :
    runBlockLoop p runMle compress na full (b :: rest) =
      match processBlock p runMle compress (na b) b (readStack full b) with
      | .error msg => .error msg
      | .ok .skippedNoData => runBlockLoop p runMle compress na full rest
      | .ok (.skippedPhaseLink msg) =>
        (runBlockLoop p runMle compress na full rest).map
          fun dr => (msg :: dr.1, dr.2)
      | .ok (.wrote reqs) =>
        (runBlockLoop p runMle compress na full rest).map
          fun dr => (dr.1, reqs ++ dr.2) := rfl

/-- C3: a block whose fetched sub-array is uniformly the no-data sentinel
(zero) is skipped: the block produces no write requests and no error, and
the loop continues with the remaining blocks exactly as if the block were
absent. -/
theorem c3_nodata_short_circuit (p : SingleParams)
    (runMle : Int → Stack → Except PLErr EstOut)
    (compress : Stack → Stack → Mat) (na : BlockDesc → NeighborArrays)
    (full : Stack) (b : BlockDesc) (rest : List BlockDesc)
    (hz : stackAll (fun v => v == FP.num 0) (readStack full b) = true) :
    processBlock p runMle compress (na b) b (readStack full b) =
      .ok .skippedNoData ∧
    runBlockLoop p runMle compress na full (b :: rest) =
      runBlockLoop p runMle compress na full rest := by
  have h1 : processBlock p runMle compress (na b) b (readStack full b) =
      .ok .skippedNoData := by
    unfold processBlock
    rw [hz]
    rfl
  refine ⟨h1, ?_⟩
  rw [runBlockLoop_cons, h1]

/-- Witness for C3 at a concrete all-zero 1×1 block. -/
theorem c3_nodata_short_circuit_witness :
    processBlock pW rmOk cpW (naW bW) bW (readStack zeros1 bW) =
      .ok .skippedNoData ∧
    runBlockLoop pW rmOk cpW naW zeros1 [bW] =
      runBlockLoop pW rmOk cpW naW zeros1 [] :=
  c3_nodata_short_circuit pW rmOk cpW naW zeros1 bW [] (by decide)

/-- C5: the recoverable `PhaseLinkRuntimeError` is absorbed at block level —
the loop records the diagnostic message and continues with the next block; a
non-recoverable exception propagates out and aborts the loop; and when no
block raises a non-recoverable error the whole loop always returns
normally. -/
theorem c5_error_propagation (p : SingleParams)
    (runMle : Int → Stack → Except PLErr EstOut)
    (compress : Stack → Stack → Mat) (na : BlockDesc → NeighborArrays)
    (full : Stack) (b : BlockDesc) (rest blocks : List BlockDesc) :
    (∀ msg, processBlock p runMle compress (na b) b (readStack full b) =
        .ok (.skippedPhaseLink msg) →
      runBlockLoop p runMle compress na full (b :: rest) =
        (runBlockLoop p runMle compress na full rest).map
          fun dr => (msg :: dr.1, dr.2)) ∧
    (∀ msg, processBlock p runMle compress (na b) b (readStack full b) =
        .error msg →
      runBlockLoop p runMle compress na full (b :: rest) = .error msg) ∧
    ((∀ blk ∈ blocks,
        isFatal (processBlock p runMle compress (na blk) blk
          (readStack full blk)) = false) →
      ∃ out, runBlockLoop p runMle compress na full blocks = .ok out) := by
  refine ⟨?_, ?_, ?_⟩
  · intro msg h
    rw [runBlockLoop_cons, h]
  · intro msg h
    rw [runBlockLoop_cons, h]
  · intro hall
    clear b rest
    induction blocks with
    | nil => exact ⟨([], []), rfl⟩
    | cons blk more ih =>
      have hblk := hall blk (List.mem_cons_self blk more)
      have hmore := ih fun x hx => hall x (List.mem_cons_of_mem blk hx)
      obtain ⟨out, hout⟩ := hmore
      cases hres : processBlock p runMle compress (na blk) blk
          (readStack full blk) with
      | error msg =>
        rw [hres] at hblk
        simp [isFatal] at hblk
      | ok r =>
        cases r with
        | skippedNoData =>
          refine ⟨out, ?_⟩
          rw [runBlockLoop_cons, hres, hout]
        | skippedPhaseLink msg =>
          refine ⟨(msg :: out.1, out.2), ?_⟩
          rw [runBlockLoop_cons, hres, hout]
          rfl
        | wrote reqs =>
          refine ⟨(out.1, reqs ++ out.2), ?_⟩
          rw [runBlockLoop_cons, hres, hout]
          rfl

/-- Witness for C5: a recoverable failure is recorded and absorbed, a fatal
one aborts, and an all-recoverable run completes normally. -/
theorem c5_error_propagation_witness :
    (runBlockLoop pW rmPL cpW naW ones1 [bW] =
      (runBlockLoop pW rmPL cpW naW ones1 []).map
        fun dr => ("bad block" :: dr.1, dr.2)) ∧
    runBlockLoop pW rmFatal cpW naW ones1 [bW] = .error "boom" ∧
    ∃ out, runBlockLoop pW rmPL cpW naW ones1 [bW] = .ok out :=
  ⟨(c5_error_propagation pW rmPL cpW naW ones1 bW [] [bW]).1
      "bad block" (by rfl),
   (c5_error_propagation pW rmFatal cpW naW ones1 bW [] [bW]).2.1
      "boom" (by rfl),
   (c5_error_propagation pW rmPL cpW naW ones1 bW [] [bW]).2.2 (by decide)⟩

/-- Auxiliary congruence: the block pipeline consults the estimator only at
the recomputed reference index `refIdxUsed`. -/
theorem processBlock_estimator_congr (p : SingleParams)
    (rm rm' : Int → Stack → Except PLErr EstOut)
    (compress : Stack → Stack → Mat) (na : NeighborArrays) (b : BlockDesc)
    (d : Stack)
    (h : ∀ x, rm (refIdxUsed p.firstRealSlcIdx) x =
      rm' (refIdxUsed p.firstRealSlcIdx) x) :
    processBlock p rm compress na b d = processBlock p rm' compress na b d := by
  unfold processBlock
  rw [h d]

/-- C9: the `reference_idx` keyword of `run_wrapped_phase_single` is dead —
the run is identical for any two values of it, because the estimator is
consulted only at the recomputed index `refIdxUsed first_real_slc_idx`,
which equals `max(0, first_real_slc_idx - 1)`. -/
theorem c9_reference_idx_is_dead (r₁ r₂ : Int) (p : SingleParams)
    (rm rm' : Int → Stack → Except PLErr EstOut)
    (compress : Stack → Stack → Mat) (na : BlockDesc → NeighborArrays)
    (full : Stack) (blocks : List BlockDesc)
    (h : ∀ x, rm (refIdxUsed p.firstRealSlcIdx) x =
      rm' (refIdxUsed p.firstRealSlcIdx) x) :
    runWrappedPhaseSingle r₁ p rm compress na full blocks =
      runWrappedPhaseSingle r₂ p rm' compress na full blocks ∧
    refIdxUsed p.firstRealSlcIdx = max 0 ((p.firstRealSlcIdx : Int) - 1) := by
  constructor
  · show runBlockLoop p rm compress na full blocks =
      runBlockLoop p rm' compress na full blocks
    induction blocks with
    | nil => rfl
    | cons b rest ih =>
      rw [runBlockLoop_cons, runBlockLoop_cons,
        processBlock_estimator_congr p rm rm' compress (na b) b
          (readStack full b) h, ih]
  · rfl

/-- Witness for C9: two estimators agreeing only at reference index 0 give
identical runs for `reference_idx` values 0 and 7. -/
theorem c9_reference_idx_is_dead_witness :
    runWrappedPhaseSingle 0 pW rmRef cpW naW ones1 [bW] =
      runWrappedPhaseSingle 7 pW rmRef' cpW naW ones1 [bW] ∧
    refIdxUsed pW.firstRealSlcIdx = max 0 ((pW.firstRealSlcIdx : Int) - 1) :=
  c9_reference_idx_is_dead 0 7 pW rmRef rmRef' cpW naW ones1 [bW]
    fun _ => rfl

/-- Every scrubbed scalar is finite. -/
theorem nanToNum_isFinite (v : FP) : (nanToNum v).isFinite = true := by
  cases v <;> rfl

/-- A scrubbed matrix is entirely finite. -/
theorem matAll_isFinite_matMap (m : Mat) :
    matAll FP.isFinite (matMap nanToNum m) = true := by
  simp only [matAll, matMap, List.all_map, List.all_eq_true, Function.comp]
  intro row _ v _
  exact nanToNum_isFinite v

/-- Any `sliceN` segment is a sublist. -/
theorem sliceN_sublist (a b : Nat) (l : List α) :
    List.Sublist (sliceN a b l) l :=
  (List.take_sublist _ _).trans (List.drop_sublist _ _)

/-- Submatrices of an all-`p` matrix are all-`p`. -/
theorem matAll_sliceMat (p : FP → Bool) (r c : Range2) (m : Mat)
    (h : matAll p m = true) : matAll p (sliceMat r c m) = true := by
  rw [matAll, List.all_eq_true] at h ⊢
  intro row hrow
  simp only [sliceMat, List.mem_map] at hrow
  obtain ⟨row₀, hrow₀, rfl⟩ := hrow
  have hall := h row₀ ((sliceN_sublist _ _ _).subset hrow₀)
  rw [List.all_eq_true] at hall ⊢
  intro v hv
  exact hall v ((sliceN_sublist _ _ _).subset hv)

/-- Unfolding of the auxiliary-output queue when the average coherence is
present. -/
theorem auxReqs_some (p : SingleParams) (b : BlockDesc) (t m c : Mat) :
    auxReqs p b t (some m) c =
      [⟨sliceMat b.trimmedRows b.trimmedCols t, p.tcorrFile,
          b.outRows.start, b.outCols.start⟩,
       ⟨sliceMat b.trimmedRows b.trimmedCols m, p.avgCohFile,
          b.outRows.start, b.outCols.start⟩,
       ⟨sliceMat b.trimmedRows b.trimmedCols c, p.shpCountsFile,
          b.outRows.start, b.outCols.start⟩] := rfl

/-- Decomposition of a successful block: the queued requests are the
per-slice estimates, the compressed block, and the auxiliary layers, in that
order. -/
theorem processBlock_ok (p : SingleParams)
    (rm : Int → Stack → Except PLErr EstOut)
    (compress : Stack → Stack → Mat) (na : NeighborArrays) (b : BlockDesc)
    (d : Stack) (est : EstOut)
    (hz : stackAll (fun v => v == FP.num 0) d = false)
    (hok : rm (refIdxUsed p.firstRealSlcIdx) d = .ok est) :
    processBlock p rm compress na b d = .ok (.wrote
      (perSliceReqs p.firstRealSlcIdx p.phaseLinkedSlcFiles b
          (stackMap nanToNum est.mleStack)
        ++ [⟨compress (compressedInput p.firstRealSlcIdx b d)
              (((stackMap nanToNum est.mleStack).drop p.firstRealSlcIdx).map
                (sliceMat b.trimmedRows b.trimmedCols)),
            p.compSlcFile, b.noPadRows.start, b.noPadCols.start⟩]
        ++ auxReqs p b (matMap nanToNum est.tcorr) est.avgCoh
            (shpCountsOf na))) := by
  unfold processBlock
  rw [hz, hok]
  rfl

/-- C2 (amended): for a block whose estimation succeeds, NaN values in the
per-slice phase estimates and the temporal correlation are replaced (NaN by
zero, infinities by the largest-magnitude finite float) before those two
outputs are enqueued — so they reach the queue entirely finite — while the
average-coherence output is enqueued without any scrubbing. -/
theorem c2_scrubbing_amended (p : SingleParams)
    (rm : Int → Stack → Except PLErr EstOut)
    (compress : Stack → Stack → Mat) (na : NeighborArrays) (b : BlockDesc)
    (d : Stack) (est : EstOut) (m : Mat)
    (hz : stackAll (fun v => v == FP.num 0) d = false)
    (hok : rm (refIdxUsed p.firstRealSlcIdx) d = .ok est)
    (hcoh : est.avgCoh = some m) :
    processBlock p rm compress na b d = .ok (.wrote
      (perSliceReqs p.firstRealSlcIdx p.phaseLinkedSlcFiles b
          (stackMap nanToNum est.mleStack)
        ++ [⟨compress (compressedInput p.firstRealSlcIdx b d)
              (((stackMap nanToNum est.mleStack).drop p.firstRealSlcIdx).map
                (sliceMat b.trimmedRows b.trimmedCols)),
            p.compSlcFile, b.noPadRows.start, b.noPadCols.start⟩]
        ++ [⟨sliceMat b.trimmedRows b.trimmedCols (matMap nanToNum est.tcorr),
              p.tcorrFile, b.outRows.start, b.outCols.start⟩,
            ⟨sliceMat b.trimmedRows b.trimmedCols m,
              p.avgCohFile, b.outRows.start, b.outCols.start⟩,
            ⟨sliceMat b.trimmedRows b.trimmedCols (shpCountsOf na),
              p.shpCountsFile, b.outRows.start, b.outCols.start⟩])) ∧
    (∀ r ∈ perSliceReqs p.firstRealSlcIdx p.phaseLinkedSlcFiles b
        (stackMap nanToNum est.mleStack),
      matAll FP.isFinite r.data = true) ∧
    matAll FP.isFinite
      (sliceMat b.trimmedRows b.trimmedCols (matMap nanToNum est.tcorr)) =
      true := by
  refine ⟨?_, ?_, ?_⟩
  · rw [processBlock_ok p rm compress na b d est hz hok, hcoh, auxReqs_some]
  · intro r hr
    simp only [perSliceReqs, List.mem_map] at hr
    obtain ⟨⟨img, fn⟩, hpr, rfl⟩ := hr
    have h1 := (List.of_mem_zip hpr).1
    simp only [List.mem_map] at h1
    obtain ⟨m₀, hm₀, rfl⟩ := h1
    have hm₀s := List.mem_of_mem_drop hm₀
    simp only [stackMap, List.mem_map] at hm₀s
    obtain ⟨m₁, _, rfl⟩ := hm₀s
    exact matAll_sliceMat _ _ _ _ (matAll_isFinite_matMap m₁)
  · exact matAll_sliceMat _ _ _ _ (matAll_isFinite_matMap est.tcorr)

/-- Witness for C2 (amended) at a concrete block whose average coherence
contains a NaN. -/
theorem c2_scrubbing_amended_witness :
    matAll FP.isFinite
      (sliceMat bW.trimmedRows bW.trimmedCols
        (matMap nanToNum estNan.tcorr)) = true :=
  (c2_scrubbing_amended pW rmNanCoh cpW (naW bW) bW ones1 estNan
    [[FP.nan]] (by rfl) (by rfl) (by rfl)).2.2

/-- Counterexample for C2 as stated: at a concrete block the estimator's
average coherence contains a NaN and the request queued to the
average-coherence file still contains that NaN — a non-finite estimator
output reaches the write queue unscrubbed. -/
theorem c2_nan_reaches_queue_counterexample :
    processBlock pW rmNanCoh cpW (naW bW) bW ones1 =
      .ok (.wrote
        [⟨[[FP.num 1]], "d1.slc.tif", 0, 0⟩,
         ⟨[[FP.num 0]], "comp.tif", 0, 0⟩,
         ⟨[[FP.num 1]], "tcorr.tif", 0, 0⟩,
         ⟨[[FP.nan]], "avgcoh.tif", 0, 0⟩,
         ⟨[[FP.num 0]], "shp.tif", 0, 0⟩]) ∧
    (match processBlock pW rmNanCoh cpW (naW bW) bW ones1 with
      | .ok (.wrote rs) =>
        rs.any fun r => r.data.any fun row => row.any fun v => !v.isFinite
      | _ => false) = true := by
  constructor
  · rfl
  · rfl

/-- The leading-compressed count never exceeds the list length. -/
theorem countLeadingCompressed_le (l : List SlcEntry) :
    countLeadingCompressed l ≤ l.length := by
  induction l with
  | nil => exact Nat.le_refl 0
  | cons e rest ih =>
    by_cases h : e.isCompressed
    · simpa [countLeadingCompressed, h] using Nat.succ_le_succ ih
    · simp [countLeadingCompressed, h]

/-- When the compressed slices form exactly the leading prefix, the number
of real slices is the total count minus the leading-compressed count. -/
theorem filter_real_length (l : List SlcEntry)
    (hpre : (l.drop (countLeadingCompressed l)).all
      (fun e => !e.isCompressed) = true) :
    (l.filter fun e => !e.isCompressed).length =
      l.length - countLeadingCompressed l := by
  induction l with
  | nil => rfl
  | cons e rest ih =>
    by_cases h : e.isCompressed
    · have hcl : countLeadingCompressed (e :: rest) =
          countLeadingCompressed rest + 1 := by
        simp [countLeadingCompressed, h]
      rw [hcl] at hpre ⊢
      simp only [List.drop_succ_cons] at hpre
      have hrec := ih hpre
      have hle := countLeadingCompressed_le rest
      simp only [List.filter_cons, h, Bool.not_true, Bool.false_eq_true,
        if_false, List.length_cons]
      omega
    · have hcl : countLeadingCompressed (e :: rest) = 0 := by
        simp [countLeadingCompressed, h]
      rw [hcl] at hpre ⊢
      simp only [List.drop_zero] at hpre
      rw [List.filter_eq_self.2 (List.all_eq_true.1 hpre)]
      simp

/-- The j-th queued per-slice request pairs the (first + j)-th estimate,
trimmed, with the j-th output file, at the block's output offset. -/
theorem perSliceReqs_get? (f : Nat) (files : List String) (b : BlockDesc)
    (mle : Stack) (j : Nat) :
    (perSliceReqs f files b mle).get? j =
      (mle.get? (f + j)).bind fun img => (files.get? j).map fun fn =>
        WriteReq.mk (sliceMat b.trimmedRows b.trimmedCols img) fn
          b.outRows.start b.outCols.start := by
  have hd : (mle.drop f).get? j = mle.get? (f + j) := by
    simp [List.get?_eq_getElem?, List.getElem?_drop]
  simp only [perSliceReqs, List.zip, List.get?_map, List.get?_zipWith',
    hd]
  cases h1 : mle.get? (f + j) <;> cases h2 : files.get? j <;>
    simp [h1, h2]

/-- C4: the per-slice output files number exactly the real (non-synthetic)
slices of the mini-stack; the queued per-slice requests number the same; and
the j-th queued request carries the (first_real_slc_idx + j)-th estimate,
trimmed, into the j-th file — so estimates at compressed positions are never
re-emitted. -/
theorem c4_real_slice_outputs (ms : MiniStackInfo) (b : BlockDesc)
    (mle : Stack) (j : Nat)
    (hpre : (ms.entries.drop ms.firstRealSlcIdx).all
      (fun e => !e.isCompressed) = true)
    (hlen : mle.length = ms.entries.length) :
    (setupOutputFolder ms).length = ms.realSlcCount ∧
    (perSliceReqs ms.firstRealSlcIdx (setupOutputFolder ms) b mle).length =
      ms.realSlcCount ∧
    (perSliceReqs ms.firstRealSlcIdx (setupOutputFolder ms) b mle).get? j =
      (mle.get? (ms.firstRealSlcIdx + j)).bind fun img =>
        ((setupOutputFolder ms).get? j).map fun fn =>
          WriteReq.mk (sliceMat b.trimmedRows b.trimmedCols img) fn
            b.outRows.start b.outCols.start := by
  have hfiles : (setupOutputFolder ms).length =
      ms.entries.length - ms.firstRealSlcIdx := by
    simp [setupOutputFolder, MiniStackInfo.getDateStrList]
  have hreal : ms.realSlcCount =
      ms.entries.length - ms.firstRealSlcIdx :=
    filter_real_length ms.entries hpre
  refine ⟨by rw [hfiles, hreal], ?_, perSliceReqs_get? _ _ _ _ _⟩
  have hle : ms.firstRealSlcIdx ≤ ms.entries.length :=
    countLeadingCompressed_le ms.entries
  simp only [perSliceReqs, List.length_map, List.length_zip,
    List.length_drop, hfiles, hlen, hreal]
  omega

/-- Witness for C4 on a mini-stack with one compressed and two real
slices. -/
theorem c4_real_slice_outputs_witness :
    (setupOutputFolder msW).length = msW.realSlcCount ∧
    (perSliceReqs msW.firstRealSlcIdx (setupOutputFolder msW) bW
      mleW).length = msW.realSlcCount ∧
    (perSliceReqs msW.firstRealSlcIdx (setupOutputFolder msW) bW
      mleW).get? 0 =
      (mleW.get? (msW.firstRealSlcIdx + 0)).bind fun img =>
        ((setupOutputFolder msW).get? 0).map fun fn =>
          WriteReq.mk (sliceMat bW.trimmedRows bW.trimmedCols img) fn
            bW.outRows.start bW.outCols.start :=
  c4_real_slice_outputs msW bW mleW 0 (by decide) (by rfl)

/-- Queueing in debug mode persists immediately, in order. -/
theorem queueAll_debug (q per : List WriteReq) (rs : List WriteReq) :
    Writer.queueAll ⟨true, q, per⟩ rs = ⟨true, q, per ++ rs⟩ := by
  induction rs generalizing per with
  | nil => simp [Writer.queueAll]
  | cons r rest ih =>
    show Writer.queueAll (Writer.queueWrite ⟨true, q, per⟩ r) rest = _
    rw [show Writer.queueWrite ⟨true, q, per⟩ r = ⟨true, q, per ++ [r]⟩
      from rfl, ih]
    simp

/-- Queueing in background mode accumulates the FIFO queue, in order. -/
theorem queueAll_background (q per : List WriteReq) (rs : List WriteReq) :
    Writer.queueAll ⟨false, q, per⟩ rs = ⟨false, q ++ rs, per⟩ := by
  induction rs generalizing q with
  | nil => simp [Writer.queueAll]
  | cons r rest ih =>
    show Writer.queueAll (Writer.queueWrite ⟨false, q, per⟩ r) rest = _
    rw [show Writer.queueWrite ⟨false, q, per⟩ r = ⟨false, q ++ [r], per⟩
      from rfl, ih]
    simp

/-- C7: with `debug=True`, `queue_write` is `write` — every request is
persisted immediately and synchronously, with nothing pending — and for any
request sequence the debug-mode persisted log equals the log the background
mode produces once drained by `notify_finished`. -/
theorem c7_debug_writer_is_synchronous_write :
    (∀ (q per : List WriteReq) (r : WriteReq),
      Writer.queueWrite ⟨true, q, per⟩ r = Writer.write ⟨true, q, per⟩ r) ∧
    (∀ rs : List WriteReq,
      (Writer.queueAll (Writer.init true) rs).persisted = rs ∧
      (Writer.queueAll (Writer.init true) rs).queue = [] ∧
      (Writer.notifyFinished
          (Writer.queueAll (Writer.init false) rs)).persisted =
        (Writer.queueAll (Writer.init true) rs).persisted) := by
  refine ⟨fun q per r => rfl, fun rs => ?_⟩
  rw [show Writer.init true = ⟨true, [], []⟩ from rfl,
    show Writer.init false = ⟨false, [], []⟩ from rfl,
    queueAll_debug, queueAll_background]
  simp [Writer.notifyFinished]

/-- C8: `ShpMethod.NONE` resolves to the very member `RECT` (Python Enum
alias semantics on the duplicate value "rect"), the two names share the
value "rect", and every dispatch on the method treats them identically. -/
theorem c8_shp_method_none_aliases_rect :
    enumResolve shpMethodMembers "NONE" = some "RECT" ∧
    enumResolve shpMethodMembers "RECT" = some "RECT" ∧
    shpMethodMembers.lookup "NONE" = shpMethodMembers.lookup "RECT" ∧
    ShpMethod.NONE = ShpMethod.rect ∧
    ShpMethod.NONE.value = "rect" ∧
    ∀ (α : Type) (f : ShpMethod → α), f ShpMethod.NONE = f ShpMethod.rect :=
  ⟨rfl, rfl, rfl, rfl, rfl, fun _ _ => rfl⟩

/-- Bounded lookup into a `sliceN` segment shifts the index. -/
theorem sliceN_get? {α : Type} (a b i : Nat) (l : List α) (h : i < b - a) :
    (sliceN a b l).get? i = l.get? (a + i) := by
  simp [sliceN, List.get?_eq_getElem?, List.getElem?_take, h,
    List.getElem?_drop]

/-- In-bounds `get?` agrees with `getD`. -/
theorem get?_eq_some_getD {α : Type} (l : List α) (n : Nat) (d : α)
    (h : n < l.length) : l.get? n = some (l.getD n d) := by
  simp [List.get?_eq_getElem?, List.getD_eq_getElem?_getD,
    List.getElem?_eq_getElem h]

/-- Length of a `sliceN` segment. -/
theorem sliceN_length {α : Type} (a b : Nat) (l : List α) :
    (sliceN a b l).length = min (b - a) (l.length - a) := by
  simp [sliceN]

/-- When the window fits inside the grid, the center entry of the extracted
GLRT window is exactly the grid value at the tested pixel. -/
theorem getWindow_center (s : QMat) (r c hr hc cols : Nat)
    (hrect : ∀ row ∈ s, row.length = cols)
    (hr1 : hr ≤ r) (hr2 : r + hr < s.length)
    (hc1 : hc ≤ c) (hc2 : c + hc < cols) :
    qGet (getWindow s r c hr hc) hr hc = qGet s r c := by
  have hlen0 : 0 < s.length := Nat.lt_of_le_of_lt (Nat.zero_le _) hr2
  have hcols0 : (s.getD 0 []).length = cols := by
    cases s with
    | nil => simp at hlen0
    | cons hd t => exact hrect hd (List.mem_cons_self hd t)
  have hr0 : dynSliceStart ((r : Int) - (hr : Int)) s.length (2 * hr + 1) =
      r - hr := by
    unfold dynSliceStart
    omega
  have hc0 : dynSliceStart ((c : Int) - (hc : Int)) (s.getD 0 []).length
      (2 * hc + 1) = c - hc := by
    unfold dynSliceStart
    rw [hcols0]
    omega
  have hwin : getWindow s r c hr hc =
      (sliceN (r - hr) ((r - hr) + (2 * hr + 1)) s).map
        (sliceN (c - hc) ((c - hc) + (2 * hc + 1))) := by
    simp only [getWindow]
    rw [hr0, hc0]
  have hsr : s.get? r = some (s.getD r []) :=
    get?_eq_some_getD s r [] (by omega)
  have hsrmem : s.getD r [] ∈ s := List.get?_mem hsr
  have hsrlen : (s.getD r []).length = cols := hrect _ hsrmem
  have hLget : (sliceN (r - hr) ((r - hr) + (2 * hr + 1)) s).get? hr =
      some (s.getD r []) := by
    rw [sliceN_get? _ _ _ _ (by omega), show (r - hr) + hr = r by omega,
      hsr]
  have hWget : (getWindow s r c hr hc).get? hr =
      some (sliceN (c - hc) ((c - hc) + (2 * hc + 1)) (s.getD r [])) := by
    rw [hwin, List.get?_eq_getElem?, List.getElem?_map,
      ← List.get?_eq_getElem?, hLget]
    rfl
  have hWlen : (getWindow s r c hr hc).length = 2 * hr + 1 := by
    rw [hwin, List.length_map, sliceN_length]
    omega
  have hrowlen : (sliceN (c - hc) ((c - hc) + (2 * hc + 1))
      (s.getD r [])).length = 2 * hc + 1 := by
    rw [sliceN_length, hsrlen]
    omega
  have hWrow : (getWindow s r c hr hc).getD hr [] =
      sliceN (c - hc) ((c - hc) + (2 * hc + 1)) (s.getD r []) := by
    rw [List.getD_eq_getElem?_getD, ← List.get?_eq_getElem?, hWget]
    rfl
  have hentry : (sliceN (c - hc) ((c - hc) + (2 * hc + 1))
        (s.getD r [])).getD hc 0 = (s.getD r []).getD c 0 := by
    have h1 := sliceN_get? (c - hc) ((c - hc) + (2 * hc + 1)) hc
      (s.getD r []) (by omega)
    rw [show (c - hc) + hc = c by omega] at h1
    rw [List.getD_eq_getElem?_getD, ← List.get?_eq_getElem?, h1,
      List.get?_eq_getElem?, ← List.getD_eq_getElem?_getD]
  simp only [qGet]
  rw [hWlen, show min hr (2 * hr + 1 - 1) = hr by omega, hWrow, hrowlen,
    show min hc (2 * hc + 1 - 1) = hc by omega, hentry,
    show min r (s.length - 1) = r by omega, hsrlen,
    show min c (cols - 1) = c by omega]

/-- C6: for every output pixel (out_r, out_c) the estimator tests the
full-resolution pixel (row_strides//2 + out_r*row_strides,
col_strides//2 + out_c*col_strides): both index formulas hold, and whenever
the window fits inside the grid the center entry of the extracted window is
exactly the scale value at that pixel. -/
theorem c6_strided_center_mapping (g : GlrtInputs) (outR outC cols : Nat)
    (hrect : ∀ row ∈ scaleSquared g, row.length = cols)
    (hr1 : g.halfRow ≤ inRIndex g outR)
    (hr2 : inRIndex g outR + g.halfRow < (scaleSquared g).length)
    (hc1 : g.halfCol ≤ inCIndex g outC)
    (hc2 : inCIndex g outC + g.halfCol < cols) :
    inRIndex g outR = g.rowStrides / 2 + outR * g.rowStrides ∧
    inCIndex g outC = g.colStrides / 2 + outC * g.colStrides ∧
    qGet (getWindow (scaleSquared g) (inRIndex g outR) (inCIndex g outC)
        g.halfRow g.halfCol) g.halfRow g.halfCol =
      qGet (scaleSquared g) (inRIndex g outR) (inCIndex g outC) :=
  ⟨rfl, rfl, getWindow_center (scaleSquared g) (inRIndex g outR)
    (inCIndex g outC) g.halfRow g.halfCol cols hrect hr1 hr2 hc1 hc2⟩

/-- Witness for C6 at the constant 4×4 grid, output pixel (1,1). -/
theorem c6_strided_center_mapping_witness :
    inRIndex (gW (fun _ => 0) 4) 1 =
      (gW (fun _ => 0) 4).rowStrides / 2 +
        1 * (gW (fun _ => 0) 4).rowStrides ∧
    inCIndex (gW (fun _ => 0) 4) 1 =
      (gW (fun _ => 0) 4).colStrides / 2 +
        1 * (gW (fun _ => 0) 4).colStrides ∧
    qGet (getWindow (scaleSquared (gW (fun _ => 0) 4))
        (inRIndex (gW (fun _ => 0) 4) 1) (inCIndex (gW (fun _ => 0) 4) 1)
        (gW (fun _ => 0) 4).halfRow (gW (fun _ => 0) 4).halfCol)
      (gW (fun _ => 0) 4).halfRow (gW (fun _ => 0) 4).halfCol =
      qGet (scaleSquared (gW (fun _ => 0) 4))
        (inRIndex (gW (fun _ => 0) 4) 1) (inCIndex (gW (fun _ => 0) 4) 1) :=
  c6_strided_center_mapping (gW (fun _ => 0) 4) 1 1 4 (by decide)
    (by decide) (by decide) (by decide) (by decide)

/-- C10: the self-exclusion of `_glrt.py` line 67 misses — at a constant
4×4 amplitude grid with half-window (1,1), strides (1,1), one look and any
positive GLRT threshold, the neighbor window of output pixel (2,2) keeps its
own center entry True: `is_shp.at[in_r, in_c].set(False)` clears window
entry (2,2) (the full-resolution index pair), not the window center
(half_row, half_col) = (1,1), so the pixel is counted as its own
neighbor. -/
theorem c10_self_neighbor_bug (logf : ℚ → ℚ) (threshold : ℚ)
    (h : 0 < threshold) :
    bGet (processRowCol (gW logf threshold) 2 2) 1 1 = true ∧
    bGet (processRowCol (gW logf threshold) 2 2) 2 2 = false ∧
    ((estimateNeighbors (gW logf threshold)).getD 2 []).getD 2 [] =
      processRowCol (gW logf threshold) 2 2 := by
  have h1 : inRIndex (gW logf threshold) 2 = 2 := by
    norm_num [inRIndex, inRStart, gW]
  have h2 : inCIndex (gW logf threshold) 2 = 2 := by
    norm_num [inCIndex, inCStart, gW]
  have hs : scaleSquared (gW logf threshold) =
      List.replicate 4 (List.replicate 4 (1 : ℚ)) := by
    norm_num [scaleSquared, gW, meanW, varW, List.replicate]
  have hq : qGet (scaleSquared (gW logf threshold)) 2 2 = 1 := by
    rw [hs]
    decide
  have hw : getWindow (scaleSquared (gW logf threshold)) 2 2 1 1 =
      List.replicate 3 (List.replicate 3 (1 : ℚ)) := by
    rw [hs]
    decide
  have hhr : (gW logf threshold).halfRow = 1 := rfl
  have hhc : (gW logf threshold).halfCol = 1 := rfl
  have hlg : (gW logf threshold).logf = logf := rfl
  have hth : (gW logf threshold).threshold = threshold := rfl
  have hpr : processRowCol (gW logf threshold) 2 2 =
      setAtDrop (List.replicate 3 (List.replicate 3 (decide
        (((gW logf threshold).nslc : ℚ) *
            (2 * logf ((1 + 1) / 2) - logf 1 - logf 1)
          < threshold)))) 2 2 false := by
    simp only [processRowCol, h1, h2, hq, hhr, hhc, hlg, hth, hw,
      List.map_replicate]
  have hos : computeOutShape (gW logf threshold).mean.length
      ((gW logf threshold).mean.getD 0 []).length
      (gW logf threshold).rowStrides (gW logf threshold).colStrides =
      (4, 4) := by
    norm_num [computeOutShape, gW, meanW]
  refine ⟨?_, ?_, by simp only [estimateNeighbors, hos]; rfl⟩
  · rw [hpr]
    rw [show bGet (setAtDrop (List.replicate 3 (List.replicate 3 (decide
        (((gW logf threshold).nslc : ℚ) *
            (2 * logf ((1 + 1) / 2) - logf 1 - logf 1)
          < threshold)))) 2 2 false) 1 1 = decide
        (((gW logf threshold).nslc : ℚ) *
            (2 * logf ((1 + 1) / 2) - logf 1 - logf 1)
          < threshold) from rfl]
    rw [decide_eq_true_eq]
    have hn : ((gW logf threshold).nslc : ℚ) = 1 := by
      norm_num [gW]
    have e1 : ((1 + 1 : ℚ)) / 2 = 1 := by norm_num
    rw [hn, e1]
    have e2 : (1 : ℚ) * (2 * logf 1 - logf 1 - logf 1) = 0 := by
      ring
    rw [e2]
    exact h
  · rw [hpr]
    rfl

/-- Witness for C10 at threshold 4 (the df=1 chi-square 95% cutoff is about
3.84) and an arbitrary concrete log. -/
theorem c10_self_neighbor_bug_witness :
    bGet (processRowCol (gW (fun _ => 0) 4) 2 2) 1 1 = true ∧
    bGet (processRowCol (gW (fun _ => 0) 4) 2 2) 2 2 = false ∧
    ((estimateNeighbors (gW (fun _ => 0) 4)).getD 2 []).getD 2 [] =
      processRowCol (gW (fun _ => 0) 4) 2 2 :=
  c10_self_neighbor_bug (fun _ => 0) 4 (by norm_num)

end Dolphin
